import Mathlib

/-!
# sysrandom.h: the `getrandom` compatibility shim

A verification development for `src/sysrandom.h`.  The header is a three-way
conditional-compilation switch:

* on FreeBSD / OpenBSD / NetBSD / Apple it defines
  `static ssize_t getrandom(void *buf, size_t buflen, unsigned int flags)`,
  which forwards to `arc4random_buf(buf, buflen)` and returns `buflen`;
* on Linux it includes `<sys/random.h>`;
* anywhere else it stops the build with `#error`.

Modelling choices.

* The preprocessor environment is the list of macro names that are defined;
  the header is a function from that environment to its outcome.
* `size_t` and `ssize_t` have `w` bits (`w` is a parameter, 32 or 64 on the
  platforms concerned).  A `size_t` value is a natural number below `2 ^ w`;
  an `ssize_t` value is an integer.  `return buflen;` converts `size_t` to
  `ssize_t`; the conversion of an out-of-range value is implementation-defined
  in C and is reduction modulo `2 ^ w` on GCC and Clang, which is what
  `sizeToSsize` does.
* Addresses are natural numbers and memory maps an address to a byte.  The
  `unsigned int` argument `flags` is a natural number; the theorems hold for
  every natural number, hence for every `unsigned int` value.
* `#pragma once` only guards against a second inclusion and plays no part in
  the outcome of one inclusion.
* `arc4random_buf` belongs to the host C library, not to this repository.  It
  is a parameter of the model: an arbitrary transformer of the machine state
  (memory plus the hidden state of the host random subsystem).  Calls made to
  it are recorded in a trace so that the number and the arguments of the calls
  can be stated.
-/

namespace SysRandom

/-! ## The platform switch -/

/-- Preprocessor environment: the names of the macros that are defined. -/
abbrev MacroEnv := List String

/-- The preprocessor operator `defined(name)`. -/
def defined (env : MacroEnv) (name : String) : Bool :=
  decide (name ∈ env)

/-- What preprocessing `sysrandom.h` leaves in the translation unit. -/
inductive Outcome
  | defineShim
  | includeSysRandom
  | error (msg : String)
  deriving DecidableEq, Repr

/-- The `#if` / `#elif` / `#else` chain of `sysrandom.h` (lines 3 to 14). -/
def sysrandom_h (env : MacroEnv) : Outcome :=
  if defined env "__FreeBSD__" || defined env "__OpenBSD__"
      || defined env "__NetBSD__" || defined env "__APPLE__" then
    Outcome.defineShim
  else if defined env "__linux__" then
    Outcome.includeSysRandom
  else
    Outcome.error "Unsupported platform for secure random number generation"

/-- The header defines its own `getrandom`. -/
def definesShim (env : MacroEnv) : Bool :=
  match sysrandom_h env with
  | Outcome.defineShim => true
  | _ => false

/-- The header includes `<sys/random.h>`. -/
def includesSysRandom (env : MacroEnv) : Bool :=
  match sysrandom_h env with
  | Outcome.includeSysRandom => true
  | _ => false

/-- The diagnostic with which the build fails, if it fails. -/
def buildError (env : MacroEnv) : Option String :=
  match sysrandom_h env with
  | Outcome.error msg => some msg
  | _ => none

/-! ## The machine -/

/-- Byte-addressed memory. -/
abbrev Memory := Nat → Nat

/-- Machine state seen by the host primitive: memory and the hidden state of
the host random subsystem. -/
structure Machine (σ : Type) where
  mem : Memory
  rng : σ

/-- Semantics of the host function `arc4random_buf(buf, nbytes)`. -/
abbrev Primitive (σ : Type) := Nat → Nat → Machine σ → Machine σ

/-- Program state: the machine and the calls made so far to `arc4random_buf`,
oldest first, each with its two arguments. -/
structure World (σ : Type) where
  machine : Machine σ
  trace : List (Nat × Nat)

/-- The call statement `arc4random_buf(buf, nbytes);`. -/
def callArc4 {σ : Type} (arc4random_buf : Primitive σ) (buf nbytes : Nat)
    (s : World σ) : World σ :=
  { machine := arc4random_buf buf nbytes s.machine
    trace := s.trace ++ [(buf, nbytes)] }

/-- Conversion of a `size_t` value to `ssize_t`, both `w` bits wide. -/
def sizeToSsize (w : Nat) (n : Nat) : Int :=
  if n % 2 ^ w < 2 ^ (w - 1) then ((n % 2 ^ w : Nat) : Int)
  else ((n % 2 ^ w : Nat) : Int) - (2 : Int) ^ w

/-- The shim of lines 4 to 8:
`(void)flags; arc4random_buf(buf, buflen); return buflen;`. -/
def getrandom {σ : Type} (w : Nat) (arc4random_buf : Primitive σ)
    (buf buflen flags : Nat) (s : World σ) : Int × World σ :=
  let _discarded := flags
  let s1 := callArc4 arc4random_buf buf buflen s
  (sizeToSsize w buflen, s1)

/-! ## The contract of the host primitive, and instances of it -/

/-- Address `a` lies in the `n` bytes starting at `buf`. -/
def inRegion (buf n a : Nat) : Prop := buf ≤ a ∧ a < buf + n

instance (buf n a : Nat) : Decidable (inRegion buf n a) := by
  unfold inRegion
  infer_instance

/-- The documented contract of `arc4random_buf`: it writes the region of
`nbytes` bytes at `buf` and nothing else. -/
def FillsOnlyRegion {σ : Type} (p : Primitive σ) : Prop :=
  ∀ (buf n : Nat) (m : Machine σ) (a : Nat),
    ¬ inRegion buf n a → (p buf n m).mem a = m.mem a

/-- A primitive given by a byte generator: `gen r n` yields the `n` bytes of
one request (as a map from offset to byte) and the next generator state. -/
def fillWith {σ : Type} (gen : σ → Nat → (Nat → Nat) × σ) : Primitive σ :=
  fun buf n m =>
    { mem := fun a => if inRegion buf n a then (gen m.rng n).1 (a - buf) else m.mem a
      rng := (gen m.rng n).2 }

/-- A concrete generator used to instantiate the theorems: a counter, whose
request of `n` bytes at counter `c` yields the bytes `c, c+1, ...` modulo 256. -/
def counterGen (c n : Nat) : (Nat → Nat) × Nat :=
  (fun i => (c + i) % 256, c + n)

/-- The counter primitive. -/
def counterPrim : Primitive Nat := fillWith counterGen

/-- A world with zeroed memory, counter 7 and no call made yet. -/
def world0 : World Nat :=
  { machine := { mem := fun _ => 0, rng := 7 }, trace := [] }

/-! ## Theorems about the platform switch -/

/-- The outcome of the switch in terms of membership of the macro names. -/
theorem sysrandom_h_eq (env : MacroEnv) :
    sysrandom_h env =
      if "__FreeBSD__" ∈ env ∨ "__OpenBSD__" ∈ env ∨ "__NetBSD__" ∈ env ∨ "__APPLE__" ∈ env then
        Outcome.defineShim
      else if "__linux__" ∈ env then Outcome.includeSysRandom
      else Outcome.error "Unsupported platform for secure random number generation" := by
  unfold sysrandom_h defined
  by_cases h1 : "__FreeBSD__" ∈ env <;> by_cases h2 : "__OpenBSD__" ∈ env <;>
    by_cases h3 : "__NetBSD__" ∈ env <;> by_cases h4 : "__APPLE__" ∈ env <;>
    by_cases h5 : "__linux__" ∈ env <;> simp [h1, h2, h3, h4, h5]

/-- C5: the build fails, with the diagnostic "Unsupported platform for secure
random number generation", if and only if none of `__FreeBSD__`, `__OpenBSD__`,
`__NetBSD__`, `__APPLE__` and `__linux__` is defined; in every other
configuration (at least one of the five is defined) no error is raised. -/
theorem error_iff_no_platform_defined (env : MacroEnv) :
    (buildError env = some "Unsupported platform for secure random number generation" ↔
      ("__FreeBSD__" ∉ env ∧ "__OpenBSD__" ∉ env ∧ "__NetBSD__" ∉ env ∧
        "__APPLE__" ∉ env ∧ "__linux__" ∉ env)) ∧
    (buildError env = none ↔
      ("__FreeBSD__" ∈ env ∨ "__OpenBSD__" ∈ env ∨ "__NetBSD__" ∈ env ∨
        "__APPLE__" ∈ env ∨ "__linux__" ∈ env)) := by
  unfold buildError
  rw [sysrandom_h_eq]
  by_cases h1 : "__FreeBSD__" ∈ env <;> by_cases h2 : "__OpenBSD__" ∈ env <;>
    by_cases h3 : "__NetBSD__" ∈ env <;> by_cases h4 : "__APPLE__" ∈ env <;>
    by_cases h5 : "__linux__" ∈ env <;> simp [h1, h2, h3, h4, h5]

/-- C6: for every configuration of platform macros the header defines its own
`getrandom` if and only if at least one of `__FreeBSD__`, `__OpenBSD__`,
`__NetBSD__`, `__APPLE__` is defined. -/
theorem shim_defined_iff_bsd_or_apple (env : MacroEnv) :
    definesShim env = true ↔
      ("__FreeBSD__" ∈ env ∨ "__OpenBSD__" ∈ env ∨ "__NetBSD__" ∈ env ∨ "__APPLE__" ∈ env) := by
  unfold definesShim
  rw [sysrandom_h_eq]
  by_cases h1 : "__FreeBSD__" ∈ env <;> by_cases h2 : "__OpenBSD__" ∈ env <;>
    by_cases h3 : "__NetBSD__" ∈ env <;> by_cases h4 : "__APPLE__" ∈ env <;>
    by_cases h5 : "__linux__" ∈ env <;> simp [h1, h2, h3, h4, h5]

/-- C7, refuted as stated: with `__linux__` and `__APPLE__` both defined the
header defines the shim and does not include `<sys/random.h>`. -/
theorem linux_with_apple_defines_shim :
    "__linux__" ∈ ["__linux__", "__APPLE__"] ∧
    sysrandom_h ["__linux__", "__APPLE__"] = Outcome.defineShim ∧
    includesSysRandom ["__linux__", "__APPLE__"] = false ∧
    definesShim ["__linux__", "__APPLE__"] = true := by
  refine ⟨by simp, ?_, ?_, ?_⟩
  · rw [sysrandom_h_eq]; simp
  · unfold includesSysRandom; rw [sysrandom_h_eq]; simp
  · unfold definesShim; rw [sysrandom_h_eq]; simp

/-- C7, amended: for every configuration in which `__linux__` is defined and
none of `__FreeBSD__`, `__OpenBSD__`, `__NetBSD__`, `__APPLE__` is, the header
takes the include path and introduces no `getrandom` definition of its own
(and raises no error). -/
theorem linux_only_includes_sys_random (env : MacroEnv)
    (hlinux : "__linux__" ∈ env)
    (hF : "__FreeBSD__" ∉ env) (hO : "__OpenBSD__" ∉ env)
    (hN : "__NetBSD__" ∉ env) (hA : "__APPLE__" ∉ env) :
    sysrandom_h env = Outcome.includeSysRandom ∧ includesSysRandom env = true ∧
      definesShim env = false ∧ buildError env = none := by
  have h : sysrandom_h env = Outcome.includeSysRandom := by
    rw [sysrandom_h_eq]; simp [hlinux, hF, hO, hN, hA]
  unfold includesSysRandom definesShim buildError
  rw [h]
  simp

/-- Instance of the amended C7 on a plain Linux configuration. -/
theorem linux_only_includes_sys_random_witness :
    sysrandom_h ["__linux__"] = Outcome.includeSysRandom ∧
      includesSysRandom ["__linux__"] = true ∧
      definesShim ["__linux__"] = false ∧ buildError ["__linux__"] = none :=
  linux_only_includes_sys_random ["__linux__"] (by simp) (by simp) (by simp) (by simp) (by simp)

/-- C10: for every set of defined platform macros exactly one of the three
outcomes (define the shim, include `<sys/random.h>`, `#error`) is chosen, and
when `__linux__` is defined together with any of `__FreeBSD__`, `__OpenBSD__`,
`__NetBSD__`, `__APPLE__` the shim definition is chosen and `<sys/random.h>`
is not included. -/
theorem bsd_branch_has_priority (env : MacroEnv) :
    (definesShim env).toNat + (includesSysRandom env).toNat
        + (buildError env).isSome.toNat = 1 ∧
    ("__linux__" ∈ env →
      ("__FreeBSD__" ∈ env ∨ "__OpenBSD__" ∈ env ∨ "__NetBSD__" ∈ env ∨ "__APPLE__" ∈ env) →
      sysrandom_h env = Outcome.defineShim ∧ definesShim env = true ∧
        includesSysRandom env = false) := by
  unfold definesShim includesSysRandom buildError
  rw [sysrandom_h_eq]
  by_cases h1 : "__FreeBSD__" ∈ env <;> by_cases h2 : "__OpenBSD__" ∈ env <;>
    by_cases h3 : "__NetBSD__" ∈ env <;> by_cases h4 : "__APPLE__" ∈ env <;>
    by_cases h5 : "__linux__" ∈ env <;> simp [h1, h2, h3, h4, h5]

/-- Instance of C10 with `__linux__` and `__FreeBSD__` both defined. -/
theorem bsd_branch_has_priority_witness :
    sysrandom_h ["__linux__", "__FreeBSD__"] = Outcome.defineShim ∧
      definesShim ["__linux__", "__FreeBSD__"] = true ∧
      includesSysRandom ["__linux__", "__FreeBSD__"] = false :=
  (bsd_branch_has_priority ["__linux__", "__FreeBSD__"]).2 (by simp) (by simp)

/-! ## Theorems about the shim -/

/-- A `size_t` value below `2 ^ (w - 1)` is unchanged by the conversion. -/
theorem sizeToSsize_small (w n : Nat) (h : n < 2 ^ (w - 1)) :
    sizeToSsize w n = (n : Int) := by
  have hle : 2 ^ (w - 1) ≤ 2 ^ w := Nat.pow_le_pow_right (by norm_num) (Nat.sub_le w 1)
  have hmod : n % 2 ^ w = n := Nat.mod_eq_of_lt (lt_of_lt_of_le h hle)
  unfold sizeToSsize
  rw [hmod, if_pos h]

/-- A `size_t` value from `2 ^ (w - 1)` upwards wraps to a negative number. -/
theorem sizeToSsize_large (w n : Nat) (hn : n < 2 ^ w) (h : 2 ^ (w - 1) ≤ n) :
    sizeToSsize w n = (n : Int) - (2 : Int) ^ w := by
  have hmod : n % 2 ^ w = n := Nat.mod_eq_of_lt hn
  unfold sizeToSsize
  rw [hmod, if_neg (Nat.not_lt.mpr h)]

/-- The return value is the converted length, whatever the other arguments. -/
theorem getrandom_fst {σ : Type} (w : Nat) (prim : Primitive σ)
    (buf L flags : Nat) (s : World σ) :
    (getrandom w prim buf L flags s).1 = sizeToSsize w L := rfl

/-- The world left by the shim is the world left by one call of the primitive. -/
theorem getrandom_snd {σ : Type} (w : Nat) (prim : Primitive σ)
    (buf L flags : Nat) (s : World σ) :
    (getrandom w prim buf L flags s).2 = callArc4 prim buf L s := rfl

/-- A generator-based primitive meets the contract of `arc4random_buf`. -/
theorem fillWith_fillsOnlyRegion {σ : Type} (gen : σ → Nat → (Nat → Nat) × σ) :
    FillsOnlyRegion (fillWith gen) := by
  intro buf n m a ha
  simp [fillWith, ha]

/-- C1, refuted as stated: with a 64-bit `size_t`, the length `2 ^ 63` is a
valid `size_t` value and the shim returns `-(2 ^ 63)`, not `2 ^ 63`. -/
theorem getrandom_returns_negative_at_two_pow_63 :
    2 ^ 63 < 2 ^ 64 ∧
    (getrandom 64 counterPrim 0 (2 ^ 63) 0 world0).1 = -(2 : Int) ^ 63 ∧
    (getrandom 64 counterPrim 0 (2 ^ 63) 0 world0).1 ≠ ((2 ^ 63 : Nat) : Int) := by
  rw [getrandom_fst]
  refine ⟨by norm_num, ?_, ?_⟩ <;> norm_num [sizeToSsize]

/-- C1, amended: for every buffer, every flags value and every length `L`
below `2 ^ (w - 1)` (that is, at most `SSIZE_MAX`), `getrandom(buf, L, flags)`
returns `L`. -/
theorem getrandom_returns_length {σ : Type} (w : Nat) (prim : Primitive σ)
    (buf L flags : Nat) (s : World σ) (hL : L < 2 ^ (w - 1)) :
    (getrandom w prim buf L flags s).1 = (L : Int) := by
  rw [getrandom_fst]
  exact sizeToSsize_small w L hL

/-- Instance of the amended C1: a request of 16 bytes returns 16. -/
theorem getrandom_returns_length_witness :
    16 < 2 ^ (64 - 1) ∧ (getrandom 64 counterPrim 4096 16 1 world0).1 = ((16 : Nat) : Int) :=
  ⟨by norm_num, getrandom_returns_length 64 counterPrim 4096 16 1 world0 (by norm_num)⟩

/-- C3, refuted as stated: with a 64-bit `size_t`, the length `2 ^ 64 - 1`
(`SIZE_MAX`) is a valid `size_t` value and the shim returns `-1`. -/
theorem getrandom_returns_minus_one_at_size_max :
    2 ^ 64 - 1 < 2 ^ 64 ∧
    (getrandom 64 counterPrim 0 (2 ^ 64 - 1) 0 world0).1 = -1 ∧
    ¬ (0 ≤ (getrandom 64 counterPrim 0 (2 ^ 64 - 1) 0 world0).1) := by
  rw [getrandom_fst]
  refine ⟨by norm_num, ?_, ?_⟩ <;> norm_num [sizeToSsize]

/-- C3, amended: for every buffer, every flags value and every length `L`
below `2 ^ (w - 1)` (at most `SSIZE_MAX`), the value returned by `getrandom`
is non-negative, and in particular is not `-1`. -/
theorem getrandom_nonneg {σ : Type} (w : Nat) (prim : Primitive σ)
    (buf L flags : Nat) (s : World σ) (hL : L < 2 ^ (w - 1)) :
    0 ≤ (getrandom w prim buf L flags s).1 ∧ (getrandom w prim buf L flags s).1 ≠ -1 := by
  rw [getrandom_fst, sizeToSsize_small w L hL]
  constructor <;> omega

/-- Instance of the amended C3 at the largest length it covers, `2 ^ 63 - 1`. -/
theorem getrandom_nonneg_witness :
    2 ^ 63 - 1 < 2 ^ (64 - 1) ∧
    0 ≤ (getrandom 64 counterPrim 0 (2 ^ 63 - 1) 0 world0).1 ∧
    (getrandom 64 counterPrim 0 (2 ^ 63 - 1) 0 world0).1 ≠ -1 :=
  ⟨by norm_num, getrandom_nonneg 64 counterPrim 0 (2 ^ 63 - 1) 0 world0 (by norm_num)⟩

/-- C9: with `w` the bit width of `size_t`, the value returned by `getrandom`
is the length converted to `ssize_t`: it is `L` for every `L < 2 ^ (w - 1)`
and `L - 2 ^ w` for every `L` from `2 ^ (w - 1)` upwards, while in both cases
the one call made to the primitive asks for all `L` bytes at `buf`. -/
theorem getrandom_return_is_wrapped_length {σ : Type} (w : Nat) (prim : Primitive σ)
    (buf L flags : Nat) (s : World σ) (hL : L < 2 ^ w) :
    (L < 2 ^ (w - 1) → (getrandom w prim buf L flags s).1 = (L : Int)) ∧
    (2 ^ (w - 1) ≤ L → (getrandom w prim buf L flags s).1 = (L : Int) - (2 : Int) ^ w) ∧
    (getrandom w prim buf L flags s).2.trace = s.trace ++ [(buf, L)] ∧
    (getrandom w prim buf L flags s).2.machine = prim buf L s.machine := by
  refine ⟨fun h => ?_, fun h => ?_, rfl, rfl⟩
  · rw [getrandom_fst, sizeToSsize_small w L h]
  · rw [getrandom_fst, sizeToSsize_large w L hL h]

/-- Instance of C9 with a 64-bit `size_t` at the first wrapping length,
`2 ^ 63`: the result is `2 ^ 63 - 2 ^ 64` and the primitive is asked for
`2 ^ 63` bytes. -/
theorem getrandom_return_is_wrapped_length_witness :
    2 ^ 63 < 2 ^ 64 ∧ 2 ^ (64 - 1) ≤ 2 ^ 63 ∧
    (getrandom 64 counterPrim 0 (2 ^ 63) 0 world0).1
      = ((2 ^ 63 : Nat) : Int) - (2 : Int) ^ 64 ∧
    (getrandom 64 counterPrim 0 (2 ^ 63) 0 world0).2.trace
      = world0.trace ++ [(0, 2 ^ 63)] :=
  ⟨by norm_num, by norm_num,
    (getrandom_return_is_wrapped_length 64 counterPrim 0 (2 ^ 63) 0 world0
      (by norm_num)).2.1 (by norm_num),
    (getrandom_return_is_wrapped_length 64 counterPrim 0 (2 ^ 63) 0 world0
      (by norm_num)).2.2.1⟩

/-- C2: for every buffer and length `L` the shim serves the request with a
single call of the primitive: the trace grows by exactly one call, whose
arguments are the caller's buffer and the length `L`; the machine the shim
leaves is exactly the machine that one call leaves (the shim writes nothing
itself); and when the primitive keeps to its contract of writing only the
region it is given, every byte outside the `L` bytes at `buf` is unchanged. -/
theorem getrandom_single_call {σ : Type} (w : Nat) (prim : Primitive σ)
    (buf L flags : Nat) (s : World σ) :
    (getrandom w prim buf L flags s).2.trace = s.trace ++ [(buf, L)] ∧
    (getrandom w prim buf L flags s).2.trace.length = s.trace.length + 1 ∧
    (getrandom w prim buf L flags s).2.machine = prim buf L s.machine ∧
    (FillsOnlyRegion prim → ∀ a : Nat, ¬ inRegion buf L a →
      (getrandom w prim buf L flags s).2.machine.mem a = s.machine.mem a) := by
  refine ⟨rfl, ?_, rfl, fun hp a ha => ?_⟩
  · rw [getrandom_snd]
    simp [callArc4]
  · rw [getrandom_snd]
    exact hp buf L s.machine a ha

/-- Instance of C2 with the counter primitive: a request of 4 bytes at address
100 is one call `(100, 4)`; the bytes at 100 and 103 are the first and fourth
generated bytes, and the bytes at 99 and 104 keep their old value. -/
theorem getrandom_single_call_witness :
    FillsOnlyRegion counterPrim ∧
    (getrandom 64 counterPrim 100 4 0 world0).2.trace = [(100, 4)] ∧
    (getrandom 64 counterPrim 100 4 0 world0).2.machine.mem 100 = 7 ∧
    (getrandom 64 counterPrim 100 4 0 world0).2.machine.mem 103 = 10 ∧
    (getrandom 64 counterPrim 100 4 0 world0).2.machine.mem 99 = world0.machine.mem 99 ∧
    (getrandom 64 counterPrim 100 4 0 world0).2.machine.mem 104 = world0.machine.mem 104 :=
  ⟨fillWith_fillsOnlyRegion counterGen,
    (getrandom_single_call 64 counterPrim 100 4 0 world0).1,
    by decide, by decide,
    (getrandom_single_call 64 counterPrim 100 4 0 world0).2.2.2
      (fillWith_fillsOnlyRegion counterGen) 99 (by decide),
    (getrandom_single_call 64 counterPrim 100 4 0 world0).2.2.2
      (fillWith_fillsOnlyRegion counterGen) 104 (by decide)⟩

/-- C4: the flags argument has no influence.  For every buffer, every length
and any two flags values, under the same primitive and from the same world,
the two calls give the same result altogether: the same return value, the same
call to `arc4random_buf` in the trace and the same machine, hence the same
memory at every address. -/
theorem getrandom_ignores_flags {σ : Type} (w : Nat) (prim : Primitive σ)
    (buf L f1 f2 : Nat) (s : World σ) :
    getrandom w prim buf L f1 s = getrandom w prim buf L f2 s ∧
    (getrandom w prim buf L f1 s).1 = (getrandom w prim buf L f2 s).1 ∧
    (getrandom w prim buf L f1 s).2.trace = (getrandom w prim buf L f2 s).2.trace ∧
    (∀ a : Nat, (getrandom w prim buf L f1 s).2.machine.mem a
      = (getrandom w prim buf L f2 s).2.machine.mem a) :=
  ⟨rfl, rfl, rfl, fun _ => rfl⟩

/-- Two successive requests through the shim are two successive calls of the
primitive and nothing more: the second call runs on the machine the first call
left, both calls reach the primitive with their own arguments, and the shim
keeps no state of its own between them. -/
theorem getrandom_twice {σ : Type} (w : Nat) (prim : Primitive σ)
    (buf1 buf2 L f1 f2 : Nat) (s : World σ) :
    (getrandom w prim buf2 L f2 (getrandom w prim buf1 L f1 s).2).2.machine
      = prim buf2 L (prim buf1 L s.machine) ∧
    (getrandom w prim buf2 L f2 (getrandom w prim buf1 L f1 s).2).2.trace
      = s.trace ++ [(buf1, L), (buf2, L)] := by
  refine ⟨rfl, ?_⟩
  simp [getrandom_snd, callArc4]

end SysRandom
